import Mathlib

/-!
Verification of `crossbeam-stm` (crate `crossbeam_arccell`, file `src/lib.rs`).

The library is a concurrent updatable cell `ArcCell<T>` built on a single
`crossbeam_epoch::Atomic<T>` slot: an atomic machine word holding a pointer to
a heap-allocated `T`.  We give a sequential shallow embedding:

* a `Mem T` state carries the table of atomic slots (`slots`: slot id to the
  pointer word currently stored there), the heap of allocated blocks
  (`blocks`: block address to the stored `T`), the list of pointers handed to
  the epoch reclamation engine for deferred destruction (`deferred`), the list
  of block addresses actually destroyed (`freed`), and the number of forced
  epoch advances (`flushes`, from `Guard::flush`);
* an `ArcCell` handle is the identity of its atomic slot (`Atomic<T>` is a
  plain atomic pointer word stored inline in the `ArcCell` struct; it is not a
  reference-counted indirection);
* block address `0` plays the role of the null pointer: `nextBlock` starts at
  `1`, so `blockGet m 0 = none` in every reachable state, mirroring
  `Shared::as_ref` returning `None` exactly on null.

Operations are translated from `src/lib.rs` line by line.  The executions are
sequential, so the `compare_and_set` in the update retry loop succeeds on its
first iteration (nobody changed the slot between the load and the CAS); the
loop body is therefore embedded as running exactly once.  Memory-ordering
annotations (`Acquire`, `Release`, `AcqRel`) have no observable effect in a
sequential run and are recorded in comments.  Functions that can hit an
`unwrap` on a null pointer return `Option`, with `none` standing for the
panic.
-/

set_option autoImplicit false

namespace CrossbeamArcCell

/-- Association-list lookup on `Nat` keys: the first binding wins.  Updating a
location is done by prepending, so the most recent binding shadows older
ones. -/
def lookupA {β : Type _} (a : Nat) : List (Nat × β) → Option β
  | [] => none
  | (k, b) :: l => if a = k then some b else lookupA a l

/-- Remove every binding of key `a` (used when a heap block is destroyed). -/
def removeA {β : Type _} (a : Nat) : List (Nat × β) → List (Nat × β)
  | [] => []
  | (k, b) :: l => if a = k then removeA a l else (k, b) :: removeA a l

/-- Global memory plus the state of the external epoch reclamation engine.

`slots` are the atomic pointer words (the `Atomic<T>` fields of live
`ArcCell` values), `blocks` the heap-allocated `T` values they point to.
`deferred` records pointers passed to `Guard::defer` (retired but not yet
destroyed), `freed` records blocks whose destructor actually ran, and
`flushes` counts `Guard::flush` calls (forced epoch advances). -/
structure Mem (T : Type) where
  nextSlot : Nat := 0
  slots : List (Nat × Nat) := []
  nextBlock : Nat := 1
  blocks : List (Nat × T) := []
  deferred : List Nat := []
  freed : List Nat := []
  flushes : Nat := 0
  deriving DecidableEq

/-- A handle to an `ArcCell<T>`: the identity of its atomic slot.  The payload
type `T` lives in the `Mem T` state the handle is used with. -/
structure ArcCell where
  inner : Nat
  deriving DecidableEq

/-- The guard returned by `ArcCell::load`: it borrows the parent cell (and
pins the current epoch, which only affects when deferred destructions may
run, not any value read in this model). -/
structure ArcCellGuard where
  parent : ArcCell
  deriving DecidableEq

namespace Mem

variable {T : Type}

/-- Read an atomic slot.  A missing slot reads as the null pointer `0`
(uninitialized memory); reachable states never look up a missing slot. -/
def slotGet (m : Mem T) (s : Nat) : Nat :=
  (lookupA s m.slots).getD 0

/-- Store a pointer word into an atomic slot (`store`/`swap`/successful
`compare_and_set` on the `Atomic`). -/
def slotSet (m : Mem T) (s : Nat) (p : Nat) : Mem T :=
  { m with slots := (s, p) :: m.slots }

/-- Create a fresh atomic slot holding the pointer word `p` (a new
`Atomic<T>` coming into existence, e.g. in `Atomic::new` or `Atomic::clone`).
Returns the new state and the slot id. -/
def newSlot (m : Mem T) (p : Nat) : Mem T × Nat :=
  ({ m with slots := (m.nextSlot, p) :: m.slots, nextSlot := m.nextSlot + 1 },
   m.nextSlot)

/-- Heap-allocate a block holding `data` (`Owned::new(data)`).  Addresses
start at `1`; `0` is the null pointer.  Returns the new state and the
address. -/
def allocBlock (m : Mem T) (data : T) : Mem T × Nat :=
  ({ m with blocks := (m.nextBlock, data) :: m.blocks, nextBlock := m.nextBlock + 1 },
   m.nextBlock)

/-- Dereference a pointer word: `none` exactly when the block is not live
(`Shared::as_ref` returning `None` on null / a dangling pointer). -/
def blockGet (m : Mem T) (a : Nat) : Option T :=
  lookupA a m.blocks

/-- `Guard::defer(move || r.into_owned())`: hand a retired pointer to the
reclamation engine; the block stays allocated until the engine runs the
deferred destruction. -/
def deferPtr (m : Mem T) (a : Nat) : Mem T :=
  { m with deferred := m.deferred ++ [a] }

/-- `Guard::flush()`: force a global epoch advance.  It affects only when
deferred destructions become runnable, never any stored value. -/
def flush (m : Mem T) : Mem T :=
  { m with flushes := m.flushes + 1 }

/-- Run the destructor of the block at address `a` right now
(`Shared::into_owned` being dropped): the block leaves the heap and the
destruction is recorded in `freed`. -/
def freeBlock (m : Mem T) (a : Nat) : Mem T :=
  { m with blocks := removeA a m.blocks, freed := m.freed ++ [a] }

/-- Well-formedness of the memory: the null address `0` is never allocated
and allocated addresses stay below the allocation counter. -/
def Wf (m : Mem T) : Prop :=
  0 < m.nextBlock ∧ ∀ p ∈ m.blocks, 0 < p.1 ∧ p.1 < m.nextBlock

instance (m : Mem T) : Decidable m.Wf := by
  unfold Wf; infer_instance

end Mem

namespace ArcCell

variable {T : Type} {E : Type}

/-- `ArcCell::new(data)`: `Atomic::new(data)` heap-allocates `data` and
initializes a fresh atomic slot with its address. -/
def new (data : T) (m : Mem T) : ArcCell × Mem T :=
  let (m1, a) := m.allocBlock data
  let (m2, s) := m1.newSlot a
  ({ inner := s }, m2)

/-- `ArcCell::update_fallible_inner(f, reclaim)`.

Pin, flush when `reclaim`, then loop: acquire-load the slot, dereference it
(`as_ref().unwrap()`, panicking on null — the `none` result), run `f`
(propagating its error and leaving the cell untouched), allocate the result
(`Owned::new`) and `compare_and_set` with acquire-release ordering.  In a
sequential run the CAS succeeds on the first iteration, so the loop runs
once; the superseded pointer is handed to `Guard::defer`. -/
def update_fallible_inner (c : ArcCell) (f : T → Except E T) (reclaim : Bool)
    (m : Mem T) : Option (Except E Unit × Mem T) :=
  let m1 := if reclaim then m.flush else m
  let shared := m1.slotGet c.inner
  match m1.blockGet shared with
  | none => none
  | some data =>
    match f data with
    | Except.error e => some (Except.error e, m1)
    | Except.ok t =>
      let (m2, a) := m1.allocBlock t
      let m3 := m2.slotSet c.inner a
      some (Except.ok (), m3.deferPtr shared)

/-- `ArcCell::update(f)`: run the shared protocol on `|t| Ok::<T, ()>(f(t))`
with reclamation, then `.unwrap()` the `Result` (a panic — `none` — if it
were an `Err`). -/
def update (c : ArcCell) (f : T → T) (m : Mem T) : Option (Mem T) :=
  match c.update_fallible_inner (fun t => (Except.ok (f t) : Except Unit T)) true m with
  | none => none
  | some (Except.error _, _) => none
  | some (Except.ok _, m') => some m'

/-- `ArcCell::update_fallible(f)`: the shared protocol with reclamation. -/
def update_fallible (c : ArcCell) (f : T → Except E T) (m : Mem T) :
    Option (Except E Unit × Mem T) :=
  c.update_fallible_inner f true m

/-- `ArcCell::update_no_reclaim(f)`: as `update` but skipping the epoch
advance. -/
def update_no_reclaim (c : ArcCell) (f : T → T) (m : Mem T) : Option (Mem T) :=
  match c.update_fallible_inner (fun t => (Except.ok (f t) : Except Unit T)) false m with
  | none => none
  | some (Except.error _, _) => none
  | some (Except.ok _, m') => some m'

/-- `ArcCell::update_fallible_no_reclaim(f)`: the shared protocol without the
epoch advance. -/
def update_fallible_no_reclaim (c : ArcCell) (f : T → Except E T) (m : Mem T) :
    Option (Except E Unit × Mem T) :=
  c.update_fallible_inner f false m

/-- `ArcCell::set_inner(data, reclaim)`: pin, flush when `reclaim`, allocate
`data` (`Owned::new`), unconditionally `swap` the slot with release ordering
(no compare-and-swap, no retry, no read of the pointed-to value) and defer
the superseded pointer. -/
def set_inner (c : ArcCell) (data : T) (reclaim : Bool) (m : Mem T) : Mem T :=
  let m1 := if reclaim then m.flush else m
  let (m2, a) := m1.allocBlock data
  let r := m2.slotGet c.inner
  let m3 := m2.slotSet c.inner a
  m3.deferPtr r

/-- `ArcCell::set(data)`. -/
def set (c : ArcCell) (data : T) (m : Mem T) : Mem T :=
  c.set_inner data true m

/-- `ArcCell::set_no_reclaim(data)`. -/
def set_no_reclaim (c : ArcCell) (data : T) (m : Mem T) : Mem T :=
  c.set_inner data false m

/-- `ArcCell::reclaim()`: pin and flush; the cell contents are untouched. -/
def reclaim (_c : ArcCell) (m : Mem T) : Mem T :=
  m.flush

/-- `ArcCell::load()`: pin the epoch and return a guard borrowing the cell.
The guard holds no value: every dereference re-reads the slot. -/
def load (c : ArcCell) : ArcCellGuard :=
  { parent := c }

/-- `Clone for ArcCell`: `self.inner.clone()`.  `Atomic<T>` is an atomic
pointer word stored inline in the `ArcCell` struct (no `Arc`, no reference
counting anywhere in `lib.rs`), so cloning it reads the current pointer word
and stores it into a fresh, independent atomic slot belonging to the new
`ArcCell` value.  The two handles alias the same block initially but do not
share a slot. -/
def clone (c : ArcCell) (m : Mem T) : ArcCell × Mem T :=
  let p := m.slotGet c.inner
  let (m', s) := m.newSlot p
  ({ inner := s }, m')

/-- `Drop for ArcCell`: pin, acquire-load the current pointer and turn it
back into an owned box (`into_owned`), whose drop frees the block directly —
no deferral. -/
def drop (c : ArcCell) (m : Mem T) : Mem T :=
  let shared := m.slotGet c.inner
  m.freeBlock shared

/-- The cell invariant: the pointer stored in the cell's slot is non-null
and points to a live block. -/
def Inv (c : ArcCell) (m : Mem T) : Prop :=
  0 < m.slotGet c.inner ∧ (m.blockGet (m.slotGet c.inner)).isSome

instance (c : ArcCell) (m : Mem T) [DecidableEq T] : Decidable (c.Inv m) := by
  unfold Inv; infer_instance

end ArcCell

namespace ArcCellGuard

variable {T : Type}

/-- `Deref for ArcCellGuard`: re-read the parent's slot with acquire
ordering and dereference it (`as_ref().unwrap()`; `none` is the panic on
null).  Nothing is cached in the guard. -/
def deref (g : ArcCellGuard) (m : Mem T) : Option T :=
  m.blockGet (m.slotGet g.parent.inner)

/-- `Debug for ArcCellGuard`: the same `StmGuard { data: … }` wrapper around
the payload's `Debug` rendering of the freshly dereferenced value. -/
def fmtDebug (g : ArcCellGuard) (dbg : T → String) (m : Mem T) : Option String :=
  (g.deref m).map (fun v => "StmGuard \x7b data: " ++ dbg v ++ " \x7d")

/-- `Display for ArcCellGuard`: `self.deref().fmt(f)` — a pure
passthrough. -/
def fmtDisplay (g : ArcCellGuard) (disp : T → String) (m : Mem T) : Option String :=
  (g.deref m).map disp

end ArcCellGuard

namespace ArcCell

variable {T : Type}

/-- `Debug for ArcCell`: `f.debug_struct("StmGuard").field("data",
self.load().deref()).finish()`.  Given the payload's own `Debug` rendering
`dbg`, the output wraps it in a `StmGuard { data: … }` struct header;
`none` is the panic of the `unwrap` inside the dereference. -/
def fmtDebug (c : ArcCell) (dbg : T → String) (m : Mem T) : Option String :=
  (c.load.deref m).map (fun v => "StmGuard \x7b data: " ++ dbg v ++ " \x7d")

/-- `Display for ArcCell`: `self.load().deref().fmt(f)` — a pure passthrough
to the payload's own `Display` rendering `disp`. -/
def fmtDisplay (c : ArcCell) (disp : T → String) (m : Mem T) : Option String :=
  (c.load.deref m).map disp

end ArcCell

/-! ## Helper lemmas -/

section Helpers

variable {T : Type} {β : Type _}

@[simp]
theorem lookupA_nil (a : Nat) : lookupA a ([] : List (Nat × β)) = none := rfl

@[simp]
theorem lookupA_cons (a k : Nat) (b : β) (l : List (Nat × β)) :
    lookupA a ((k, b) :: l) = if a = k then some b else lookupA a l := rfl

theorem removeA_eq_self (a : Nat) (l : List (Nat × β)) (h : ∀ p ∈ l, p.1 ≠ a) :
    removeA a l = l := by
  induction l with
  | nil => rfl
  | cons p l ih =>
    have hp : p.1 ≠ a := h p (List.mem_cons_self p l)
    cases p with
    | mk k b =>
      simp only [removeA, if_neg (Ne.symm hp)]
      exact congrArg _ (ih fun q hq => h q (List.mem_cons_of_mem _ hq))

@[simp]
theorem Mem.flush_slotGet (m : Mem T) (s : Nat) : (m.flush).slotGet s = m.slotGet s := rfl

@[simp]
theorem Mem.flush_blockGet (m : Mem T) (a : Nat) : (m.flush).blockGet a = m.blockGet a := rfl

@[simp]
theorem Mem.flush_nextSlot (m : Mem T) : (m.flush).nextSlot = m.nextSlot := rfl

@[simp]
theorem Mem.flush_slots (m : Mem T) : (m.flush).slots = m.slots := rfl

@[simp]
theorem Mem.flush_nextBlock (m : Mem T) : (m.flush).nextBlock = m.nextBlock := rfl

@[simp]
theorem Mem.flush_blocks (m : Mem T) : (m.flush).blocks = m.blocks := rfl

@[simp]
theorem Mem.flush_deferred (m : Mem T) : (m.flush).deferred = m.deferred := rfl

@[simp]
theorem Mem.flush_freed (m : Mem T) : (m.flush).freed = m.freed := rfl

@[simp]
theorem Mem.flush_flushes (m : Mem T) : (m.flush).flushes = m.flushes + 1 := rfl

@[simp]
theorem Mem.slotGet_mk (ns : Nat) (sl : List (Nat × Nat)) (nb : Nat) (bl : List (Nat × T))
    (df fr : List Nat) (fl s : Nat) :
    Mem.slotGet (⟨ns, sl, nb, bl, df, fr, fl⟩ : Mem T) s = (lookupA s sl).getD 0 := rfl

@[simp]
theorem Mem.blockGet_mk (ns : Nat) (sl : List (Nat × Nat)) (nb : Nat) (bl : List (Nat × T))
    (df fr : List Nat) (fl a : Nat) :
    Mem.blockGet (⟨ns, sl, nb, bl, df, fr, fl⟩ : Mem T) a = lookupA a bl := rfl

@[simp]
theorem Mem.flush_mk (ns : Nat) (sl : List (Nat × Nat)) (nb : Nat) (bl : List (Nat × T))
    (df fr : List Nat) (fl : Nat) :
    Mem.flush (⟨ns, sl, nb, bl, df, fr, fl⟩ : Mem T) = ⟨ns, sl, nb, bl, df, fr, fl + 1⟩ := rfl

instance {E α : Type _} [DecidableEq E] [DecidableEq α] : DecidableEq (Except E α) := fun a b =>
  match a, b with
  | Except.error e, Except.error e' =>
    if h : e = e' then isTrue (congrArg Except.error h)
    else isFalse fun hc => h (Except.error.inj hc)
  | Except.error _, Except.ok _ => isFalse fun hc => Except.noConfusion hc
  | Except.ok _, Except.error _ => isFalse fun hc => Except.noConfusion hc
  | Except.ok v, Except.ok v' =>
    if h : v = v' then isTrue (congrArg Except.ok h)
    else isFalse fun hc => h (Except.ok.inj hc)

/-- Well-formedness is untouched by any operation that leaves `nextBlock`
and `blocks` alone and is propagated through a fresh allocation. -/
theorem wf_cons_fresh {T : Type} {m : Mem T} (hw : m.Wf) (t : T) (ns : Nat)
    (sl : List (Nat × Nat)) (df fr : List Nat) (fl : Nat) :
    Mem.Wf ⟨ns, sl, m.nextBlock + 1, (m.nextBlock, t) :: m.blocks, df, fr, fl⟩ := by
  obtain ⟨h0, hb⟩ := hw
  refine ⟨Nat.lt_succ_of_lt h0, ?_⟩
  rintro ⟨k, b⟩ hp
  simp only [List.mem_cons, Prod.mk.injEq] at hp
  rcases hp with ⟨rfl, rfl⟩ | hp
  · exact ⟨h0, Nat.lt_succ_self _⟩
  · have h2 := hb _ hp
    exact ⟨h2.1, Nat.lt_succ_of_lt h2.2⟩

/-- The reclaiming run of the shared update protocol equals the
non-reclaiming run with the one extra epoch advance folded into the
resulting state. -/
theorem inner_flush_comm {T E : Type} (c : ArcCell) (f : T → Except E T) (m : Mem T) :
    c.update_fallible_inner f true m
      = (c.update_fallible_inner f false m).map (fun p => (p.1, p.2.flush)) := by
  rcases hb : m.blockGet (m.slotGet c.inner) with _ | data
  · simp [ArcCell.update_fallible_inner, hb]
  · rcases hfd : f data with e | t <;>
      simp [ArcCell.update_fallible_inner, hb, hfd, Mem.allocBlock, Mem.slotSet,
        Mem.deferPtr]

/-- A state whose slot table starts with a binding of `c.inner` to a block
that heads the block table satisfies the cell invariant, provided the block
address is non-null. -/
theorem inv_cons_fresh {T : Type} (c : ArcCell) {nb : Nat} (hnb : 0 < nb) (t : T)
    (ns : Nat) (sl : List (Nat × Nat)) (bl : List (Nat × T)) (df fr : List Nat) (fl : Nat) :
    c.Inv ⟨ns, (c.inner, nb) :: sl, nb + 1, (nb, t) :: bl, df, fr, fl⟩ := by
  constructor <;> simp [ArcCell.Inv, Mem.slotGet, Mem.blockGet]
  exact hnb

end Helpers

/-! ## Claims -/

section Claims

variable {T : Type} {E : Type}

/-- Claim C2: in a sequential run, `update(f)` on a cell currently holding
`v` succeeds and installs exactly `f v` into a freshly allocated block; a
subsequent load dereferences to `f v`, and the superseded pointer is handed
to the reclamation engine (`deferred`) rather than freed (`freed` and all
previously allocated blocks are untouched). -/
theorem update_installs_f_of_current (f : T → T) (c : ArcCell) (m : Mem T) (v : T)
    (h : (c.load).deref m = some v) :
    ∃ m', c.update f m = some m' ∧
      (c.load).deref m' = some (f v) ∧
      m'.deferred = m.deferred ++ [m.slotGet c.inner] ∧
      m'.freed = m.freed ∧
      m'.blocks = (m.nextBlock, f v) :: m.blocks := by
  have h' : m.blockGet (m.slotGet c.inner) = some v := h
  refine ⟨{ nextSlot := m.nextSlot, slots := (c.inner, m.nextBlock) :: m.slots,
            nextBlock := m.nextBlock + 1, blocks := (m.nextBlock, f v) :: m.blocks,
            deferred := m.deferred ++ [m.slotGet c.inner], freed := m.freed,
            flushes := m.flushes + 1 }, ?_, ?_, rfl, rfl, rfl⟩
  · simp [ArcCell.update, ArcCell.update_fallible_inner, h', Mem.allocBlock,
      Mem.slotSet, Mem.deferPtr]
  · simp [ArcCell.load, ArcCellGuard.deref, Mem.slotGet, Mem.blockGet]

/-- Claim C2 witness: a concrete run of `update` on a freshly constructed
cell holding `1`, updated with the successor function. -/
theorem update_installs_f_of_current_witness :
    ((ArcCell.new (1 : Nat) ({} : Mem Nat)).1.load).deref (ArcCell.new (1 : Nat) ({} : Mem Nat)).2
        = some 1 ∧
    ∃ m', (ArcCell.new (1 : Nat) ({} : Mem Nat)).1.update Nat.succ
            (ArcCell.new (1 : Nat) ({} : Mem Nat)).2 = some m' ∧
      ((ArcCell.new (1 : Nat) ({} : Mem Nat)).1.load).deref m' = some 2 ∧
      m'.deferred = (ArcCell.new (1 : Nat) ({} : Mem Nat)).2.deferred
          ++ [(ArcCell.new (1 : Nat) ({} : Mem Nat)).2.slotGet
                (ArcCell.new (1 : Nat) ({} : Mem Nat)).1.inner] ∧
      m'.freed = (ArcCell.new (1 : Nat) ({} : Mem Nat)).2.freed ∧
      m'.blocks = ((ArcCell.new (1 : Nat) ({} : Mem Nat)).2.nextBlock, 2)
          :: (ArcCell.new (1 : Nat) ({} : Mem Nat)).2.blocks :=
  ⟨by decide,
   update_installs_f_of_current Nat.succ (ArcCell.new (1 : Nat) ({} : Mem Nat)).1
     (ArcCell.new (1 : Nat) ({} : Mem Nat)).2 1 (by decide)⟩

/-- Claim C4: `set(x)` unconditionally installs `x` into a freshly allocated
block, defers the superseded pointer, frees nothing, keeps every previously
allocated block, and its behaviour is independent of the heap contents (it
never reads the prior value): replacing the block table by any `bs` changes
the result only by threading `bs` through. -/
theorem set_installs_unconditionally (x : T) (c : ArcCell) (m : Mem T) :
    (c.load).deref (c.set x m) = some x ∧
    (c.set x m).deferred = m.deferred ++ [m.slotGet c.inner] ∧
    (c.set x m).freed = m.freed ∧
    (c.set x m).blocks = (m.nextBlock, x) :: m.blocks ∧
    (c.set x m).nextBlock = m.nextBlock + 1 ∧
    ∀ bs : List (Nat × T),
      c.set x { m with blocks := bs } = { c.set x m with blocks := (m.nextBlock, x) :: bs } := by
  refine ⟨?_, rfl, rfl, rfl, rfl, fun bs => rfl⟩
  simp [ArcCell.set, ArcCell.set_inner, ArcCell.load, ArcCellGuard.deref,
    Mem.allocBlock, Mem.slotSet, Mem.deferPtr, Mem.slotGet, Mem.blockGet]

/-- Claim C5: a `ReadGuard` is not a cached snapshot: for a cell constructed
with `a`, the guard taken before `set b` dereferences to `a` beforehand and
to `b` afterwards — the very same guard value re-reads the slot. -/
theorem guard_rereads_current_pointer (a b : T) (m : Mem T) :
    ((ArcCell.new a m).1.load).deref (ArcCell.new a m).2 = some a ∧
    ((ArcCell.new a m).1.load).deref
        ((ArcCell.new a m).1.set b (ArcCell.new a m).2) = some b := by
  constructor <;>
    simp [ArcCell.new, ArcCell.set, ArcCell.set_inner, ArcCell.load, ArcCellGuard.deref,
      Mem.newSlot, Mem.allocBlock, Mem.slotSet, Mem.slotGet, Mem.blockGet, Mem.deferPtr]

/-- Claim C3: when `f` returns `Err e` on the current value, both
`update_fallible` and `update_fallible_no_reclaim` return `Err e` verbatim,
install nothing and leave the cell's value unchanged: the resulting state is
the input state (up to the epoch advance already performed by the reclaiming
variant, which touches no slot, block, deferral or free), and a post-call
load equals the pre-call load. -/
theorem update_fallible_error_leaves_cell_untouched (f : T → Except E T) (c : ArcCell)
    (m : Mem T) (v : T) (e : E) (hv : (c.load).deref m = some v)
    (hf : f v = Except.error e) :
    c.update_fallible f m = some (Except.error e, m.flush) ∧
    c.update_fallible_no_reclaim f m = some (Except.error e, m) ∧
    (m.flush).slots = m.slots ∧ (m.flush).blocks = m.blocks ∧
    (m.flush).deferred = m.deferred ∧ (m.flush).freed = m.freed ∧
    (c.load).deref (m.flush) = (c.load).deref m := by
  have h' : m.blockGet (m.slotGet c.inner) = some v := hv
  refine ⟨?_, ?_, rfl, rfl, rfl, rfl, rfl⟩ <;>
    simp [ArcCell.update_fallible, ArcCell.update_fallible_no_reclaim,
      ArcCell.update_fallible_inner, h', hf]

/-- Claim C3 witness: a concrete cell holding `1` and a closure failing with
error `7`. -/
theorem update_fallible_error_leaves_cell_untouched_witness :
    (((ArcCell.new (1 : Nat) ({} : Mem Nat)).1.load).deref
        (ArcCell.new (1 : Nat) ({} : Mem Nat)).2 = some 1) ∧
    ((fun _ : Nat => (Except.error 7 : Except Nat Nat)) 1 = Except.error 7) ∧
    ((ArcCell.new (1 : Nat) ({} : Mem Nat)).1.update_fallible
        (fun _ : Nat => (Except.error 7 : Except Nat Nat))
        (ArcCell.new (1 : Nat) ({} : Mem Nat)).2
      = some (Except.error 7, (ArcCell.new (1 : Nat) ({} : Mem Nat)).2.flush)) ∧
    ((ArcCell.new (1 : Nat) ({} : Mem Nat)).1.update_fallible_no_reclaim
        (fun _ : Nat => (Except.error 7 : Except Nat Nat))
        (ArcCell.new (1 : Nat) ({} : Mem Nat)).2
      = some (Except.error 7, (ArcCell.new (1 : Nat) ({} : Mem Nat)).2)) :=
  ⟨by decide, rfl,
   (update_fallible_error_leaves_cell_untouched
      (fun _ : Nat => (Except.error 7 : Except Nat Nat))
      (ArcCell.new (1 : Nat) ({} : Mem Nat)).1
      (ArcCell.new (1 : Nat) ({} : Mem Nat)).2 1 7 (by decide) rfl).1,
   (update_fallible_error_leaves_cell_untouched
      (fun _ : Nat => (Except.error 7 : Except Nat Nat))
      (ArcCell.new (1 : Nat) ({} : Mem Nat)).1
      (ArcCell.new (1 : Nat) ({} : Mem Nat)).2 1 7 (by decide) rfl).2.1⟩

/-- Claim C8: the `_no_reclaim` update variants run the identical protocol
as the reclaiming ones, differing exactly by the initial epoch advance: the
reclaiming run equals the non-reclaiming run with one extra flush folded in,
so both install the same value and return the same result. -/
theorem no_reclaim_variants_skip_only_flush (f : T → Except E T) (g : T → T)
    (c : ArcCell) (m : Mem T) :
    c.update_fallible f m
      = (c.update_fallible_no_reclaim f m).map (fun p => (p.1, p.2.flush)) ∧
    c.update g m = (c.update_no_reclaim g m).map Mem.flush := by
  constructor
  · simpa [ArcCell.update_fallible, ArcCell.update_fallible_no_reclaim] using
      inner_flush_comm c f m
  · have k2 := inner_flush_comm c (fun t => (Except.ok (g t) : Except Unit T)) m
    rcases hi : c.update_fallible_inner (fun t => (Except.ok (g t) : Except Unit T)) false m
      with _ | p
    · rw [hi] at k2
      simp [ArcCell.update, ArcCell.update_no_reclaim, k2, hi]
    · rw [hi] at k2
      rcases p with ⟨res, m2⟩
      rcases res with e | u <;>
        simp [ArcCell.update, ArcCell.update_no_reclaim, k2, hi]

/-- Claim C10: the infallible closure is wrapped as `|t| Ok(f(t))` before
entering the shared fallible protocol, so the protocol can never return
`Err` and the trailing `.unwrap()` in `update` and `update_no_reclaim`
never panics: both are exactly the state part of the shared protocol's
result. -/
theorem infallible_update_never_errs (f : T → T) (r : Bool) (c : ArcCell) (m : Mem T) :
    (∀ p : Except Unit Unit × Mem T,
        c.update_fallible_inner (fun t => (Except.ok (f t) : Except Unit T)) r m = some p →
        p.1 = Except.ok ()) ∧
    c.update f m
      = (c.update_fallible_inner (fun t => (Except.ok (f t) : Except Unit T)) true m).map
          (fun p => p.2) ∧
    c.update_no_reclaim f m
      = (c.update_fallible_inner (fun t => (Except.ok (f t) : Except Unit T)) false m).map
          (fun p => p.2) := by
  refine ⟨?_, ?_, ?_⟩
  · rintro ⟨p1, p2⟩ hp
    rcases hb : (if r then m.flush else m).blockGet
        ((if r then m.flush else m).slotGet c.inner) with _ | data <;>
      simp [ArcCell.update_fallible_inner, hb] at hp
    exact hp.1.symm
  · rcases hb : m.blockGet (m.slotGet c.inner) with _ | data <;>
      simp [ArcCell.update, ArcCell.update_fallible_inner, hb]
  · rcases hb : m.blockGet (m.slotGet c.inner) with _ | data <;>
      simp [ArcCell.update_no_reclaim, ArcCell.update_fallible_inner, hb]

/-- Claim C10 witness: a concrete run of the wrapped protocol on a fresh
cell holding `1`, whose result component is `Ok`. -/
theorem infallible_update_never_errs_witness :
    ((Except.ok (), (⟨1, [(0, 2), (0, 1)], 3, [(2, 2), (1, 1)], [1], [], 1⟩ : Mem Nat)) :
        Except Unit Unit × Mem Nat).1 = Except.ok () :=
  (infallible_update_never_errs Nat.succ true (ArcCell.new (1 : Nat) ({} : Mem Nat)).1
      (ArcCell.new (1 : Nat) ({} : Mem Nat)).2).1
    (Except.ok (), ⟨1, [(0, 2), (0, 1)], 3, [(2, 2), (1, 1)], [1], [], 1⟩) (by decide)

/-- Claim C6: the cell's pointer is never null between construction and
destruction: `new` establishes the invariant (non-null pointer to a live
block) on any well-formed memory, `set` re-establishes it unconditionally,
a successful `update` / `update_fallible` re-establishes it, and under the
invariant the null-check unwraps inside the update protocol and inside the
guard's dereference can never fail. -/
theorem pointer_never_null :
    (∀ (T : Type) (a : T) (m : Mem T), m.Wf →
        (ArcCell.new a m).1.Inv (ArcCell.new a m).2 ∧ (ArcCell.new a m).2.Wf) ∧
    (∀ (T : Type) (x : T) (c : ArcCell) (m : Mem T), m.Wf →
        c.Inv (c.set x m) ∧ (c.set x m).Wf) ∧
    (∀ (T : Type) (f : T → T) (c : ArcCell) (m m' : Mem T), m.Wf →
        c.update f m = some m' → c.Inv m' ∧ m'.Wf) ∧
    (∀ (T E : Type) (f : T → Except E T) (c : ArcCell) (m : Mem T)
        (res : Except E Unit) (m' : Mem T), m.Wf → c.Inv m →
        c.update_fallible f m = some (res, m') → c.Inv m' ∧ m'.Wf) ∧
    (∀ (T E : Type) (f : T → Except E T) (r : Bool) (c : ArcCell) (m : Mem T),
        c.Inv m → (c.update_fallible_inner f r m).isSome) ∧
    (∀ (T : Type) (c : ArcCell) (m : Mem T), c.Inv m → ((c.load).deref m).isSome) := by
  refine ⟨?_, ?_, ?_, ?_, ?_, ?_⟩
  · intro T a m hw
    exact ⟨inv_cons_fresh ⟨m.nextSlot⟩ hw.1 a (m.nextSlot + 1) m.slots m.blocks
        m.deferred m.freed m.flushes,
      wf_cons_fresh hw a (m.nextSlot + 1) ((m.nextSlot, m.nextBlock) :: m.slots)
        m.deferred m.freed m.flushes⟩
  · intro T x c m hw
    exact ⟨inv_cons_fresh c hw.1 x m.nextSlot m.slots m.blocks
        (m.deferred ++ [m.slotGet c.inner]) m.freed (m.flushes + 1),
      wf_cons_fresh hw x m.nextSlot ((c.inner, m.nextBlock) :: m.slots)
        (m.deferred ++ [m.slotGet c.inner]) m.freed (m.flushes + 1)⟩
  · intro T f c m m' hw hu
    rcases hb : m.blockGet (m.slotGet c.inner) with _ | data
    · simp [ArcCell.update, ArcCell.update_fallible_inner, hb] at hu
    · simp [ArcCell.update, ArcCell.update_fallible_inner, hb, Mem.allocBlock,
        Mem.slotSet, Mem.deferPtr] at hu
      subst hu
      exact ⟨inv_cons_fresh c hw.1 (f data) _ _ _ _ _ _,
        wf_cons_fresh hw (f data) _ _ _ _ _⟩
  · intro T E f c m res m' hw hI hu
    rcases hb : m.blockGet (m.slotGet c.inner) with _ | data
    · simp [ArcCell.update_fallible, ArcCell.update_fallible_inner, hb] at hu
    · rcases hfd : f data with e | t
      · simp [ArcCell.update_fallible, ArcCell.update_fallible_inner, hb, hfd] at hu
        obtain ⟨h1, h2⟩ := hu
        subst h2
        exact ⟨hI, hw⟩
      · simp [ArcCell.update_fallible, ArcCell.update_fallible_inner, hb, hfd,
          Mem.allocBlock, Mem.slotSet, Mem.deferPtr] at hu
        obtain ⟨h1, h2⟩ := hu
        subst h2
        exact ⟨inv_cons_fresh c hw.1 t _ _ _ _ _ _, wf_cons_fresh hw t _ _ _ _ _⟩
  · intro T E f r c m hI
    obtain ⟨d, hd⟩ := Option.isSome_iff_exists.mp hI.2
    cases r
    · rcases hfd : f d with e | t <;> simp [ArcCell.update_fallible_inner, hd, hfd]
    · rcases hfd : f d with e | t <;> simp [ArcCell.update_fallible_inner, hd, hfd]
  · intro T c m hI
    exact hI.2

/-- Claim C6 witness: a concrete well-formed memory and fresh cell for which
the invariant holds and the guard's dereference succeeds. -/
theorem pointer_never_null_witness :
    (({} : Mem Nat).Wf) ∧
    ((ArcCell.new (1 : Nat) ({} : Mem Nat)).1.Inv (ArcCell.new (1 : Nat) ({} : Mem Nat)).2 ∧
      (ArcCell.new (1 : Nat) ({} : Mem Nat)).2.Wf) ∧
    (((ArcCell.new (1 : Nat) ({} : Mem Nat)).1.load).deref
        (ArcCell.new (1 : Nat) ({} : Mem Nat)).2).isSome :=
  ⟨by decide,
   pointer_never_null.1 Nat 1 {} (by decide),
   pointer_never_null.2.2.2.2.2 Nat (ArcCell.new (1 : Nat) ({} : Mem Nat)).1
     (ArcCell.new (1 : Nat) ({} : Mem Nat)).2
     (pointer_never_null.1 Nat 1 {} (by decide)).1⟩

/-- Claim C7: dropping a freshly constructed cell destroys the
currently-pointed-to block directly (it lands in `freed`, not in
`deferred`), leaves every other block alone, and the payload is freed
exactly once: its address appears in `freed` exactly one more time than
before. -/
theorem drop_frees_directly_exactly_once (a : T) (m : Mem T) (hw : m.Wf) :
    ((ArcCell.new a m).1.drop (ArcCell.new a m).2).freed = m.freed ++ [m.nextBlock] ∧
    ((ArcCell.new a m).1.drop (ArcCell.new a m).2).deferred = m.deferred ∧
    ((ArcCell.new a m).1.drop (ArcCell.new a m).2).blocks = m.blocks ∧
    (((ArcCell.new a m).1.drop (ArcCell.new a m).2).freed).count m.nextBlock
      = m.freed.count m.nextBlock + 1 := by
  have hne : ∀ p ∈ m.blocks, p.1 ≠ m.nextBlock := fun p hp => Nat.ne_of_lt (hw.2 p hp).2
  have hfr : ((ArcCell.new a m).1.drop (ArcCell.new a m).2).freed
      = m.freed ++ [m.nextBlock] := by
    simp [ArcCell.new, ArcCell.drop, Mem.newSlot, Mem.allocBlock, Mem.freeBlock]
  refine ⟨hfr, ?_, ?_, ?_⟩
  · simp [ArcCell.new, ArcCell.drop, Mem.newSlot, Mem.allocBlock, Mem.freeBlock]
  · simp [ArcCell.new, ArcCell.drop, Mem.newSlot, Mem.allocBlock, Mem.freeBlock, removeA]
    exact removeA_eq_self _ _ hne
  · rw [hfr]
    simp [List.count_append]

/-- Claim C7 witness: dropping a fresh cell holding `1` built on the empty
memory frees its block exactly once. -/
theorem drop_frees_directly_exactly_once_witness :
    (({} : Mem Nat).Wf) ∧
    (((ArcCell.new (1 : Nat) ({} : Mem Nat)).1.drop
        (ArcCell.new (1 : Nat) ({} : Mem Nat)).2).freed).count ({} : Mem Nat).nextBlock
      = ({} : Mem Nat).freed.count ({} : Mem Nat).nextBlock + 1 :=
  ⟨by decide, (drop_frees_directly_exactly_once 1 {} (by decide)).2.2.2⟩

/-- Claim C1 (refuted — this is a code bug): `Clone for ArcCell` copies the
current pointer word into a fresh, independent atomic slot instead of
sharing the slot.  Concretely: construct a cell holding `1`, clone it, then
`set(2)` through the original handle — a load through the clone still
dereferences to `1` while the original observes `2`.  Dropping both handles
without an intervening set also frees block `1` twice (a double free). -/
theorem clone_does_not_share_slot :
    (((ArcCell.new (1 : Nat) ({} : Mem Nat)).1.clone
          (ArcCell.new (1 : Nat) ({} : Mem Nat)).2).1.load).deref
        ((ArcCell.new (1 : Nat) ({} : Mem Nat)).1.set 2
          ((ArcCell.new (1 : Nat) ({} : Mem Nat)).1.clone
            (ArcCell.new (1 : Nat) ({} : Mem Nat)).2).2)
      = some 1 ∧
    ((ArcCell.new (1 : Nat) ({} : Mem Nat)).1.load).deref
        ((ArcCell.new (1 : Nat) ({} : Mem Nat)).1.set 2
          ((ArcCell.new (1 : Nat) ({} : Mem Nat)).1.clone
            (ArcCell.new (1 : Nat) ({} : Mem Nat)).2).2)
      = some 2 ∧
    ((((ArcCell.new (1 : Nat) ({} : Mem Nat)).1.clone
          (ArcCell.new (1 : Nat) ({} : Mem Nat)).2).1.drop
        ((ArcCell.new (1 : Nat) ({} : Mem Nat)).1.drop
          ((ArcCell.new (1 : Nat) ({} : Mem Nat)).1.clone
            (ArcCell.new (1 : Nat) ({} : Mem Nat)).2).2)).freed).count 1 = 2 := by
  decide

/-- Claim C9 counterexample: the claim as stated — the `Debug` output is
nothing beyond the value's own representation — is false: on a cell holding
`5`, the `Debug` formatting is `StmGuard \x7b data: 5 \x7d`, not `5`. -/
theorem debug_output_not_bare_value :
    ¬ ((ArcCell.new (5 : Nat) ({} : Mem Nat)).1.fmtDebug (fun n => toString n)
          (ArcCell.new (5 : Nat) ({} : Mem Nat)).2
        = (((ArcCell.new (5 : Nat) ({} : Mem Nat)).1.load).deref
            (ArcCell.new (5 : Nat) ({} : Mem Nat)).2).map (fun n => toString n)) := by
  decide

/-- Claim C9 (amended): the `Debug` and `Display` implementations of the
cell and of its guard read the current value through a fresh load/deref and
introduce no state of their own; `Display` forwards exactly to the value's
own rendering, while `Debug` wraps the value's own rendering in a
`StmGuard \x7b data: … \x7d` struct header. -/
theorem fmt_loads_and_forwards (dbg disp : T → String) (c : ArcCell) (m : Mem T) (v : T)
    (h : (c.load).deref m = some v) :
    c.fmtDisplay disp m = some (disp v) ∧
    c.fmtDebug dbg m = some ("StmGuard \x7b data: " ++ dbg v ++ " \x7d") ∧
    (c.load).fmtDisplay disp m = some (disp v) ∧
    (c.load).fmtDebug dbg m = some ("StmGuard \x7b data: " ++ dbg v ++ " \x7d") := by
  refine ⟨?_, ?_, ?_, ?_⟩ <;>
    simp [ArcCell.fmtDisplay, ArcCell.fmtDebug, ArcCellGuard.fmtDisplay,
      ArcCellGuard.fmtDebug, h]

/-- Claim C9 witness: concrete formatting of a cell holding `5`. -/
theorem fmt_loads_and_forwards_witness :
    (((ArcCell.new (5 : Nat) ({} : Mem Nat)).1.load).deref
        (ArcCell.new (5 : Nat) ({} : Mem Nat)).2 = some 5) ∧
    (ArcCell.new (5 : Nat) ({} : Mem Nat)).1.fmtDisplay (fun n => toString n)
        (ArcCell.new (5 : Nat) ({} : Mem Nat)).2 = some "5" ∧
    (ArcCell.new (5 : Nat) ({} : Mem Nat)).1.fmtDebug (fun n => toString n)
        (ArcCell.new (5 : Nat) ({} : Mem Nat)).2 = some "StmGuard \x7b data: 5 \x7d" :=
  ⟨by decide,
   (fmt_loads_and_forwards (fun n => toString n) (fun n => toString n)
      (ArcCell.new (5 : Nat) ({} : Mem Nat)).1 (ArcCell.new (5 : Nat) ({} : Mem Nat)).2 5
      (by decide)).1,
   (fmt_loads_and_forwards (fun n => toString n) (fun n => toString n)
      (ArcCell.new (5 : Nat) ({} : Mem Nat)).1 (ArcCell.new (5 : Nat) ({} : Mem Nat)).2 5
      (by decide)).2.1⟩

end Claims

end CrossbeamArcCell
